import Mathlib

/-!
Verification of the `cpu.py` system-status reporter.

The program is a single-shot diagnostic pipeline: seven probe collectors
(system identity, BIOS/board, CPU, memory, temperature sensors, disk
partitions, network interfaces), a threshold-based health evaluator, and a
linear report renderer writing to standard output.

The host operating system's state, as observed through the metrics provider
(`psutil`), `platform`, `subprocess` and pseudo-file reads, is modelled by an
explicit `Host` snapshot record: each external read the program performs is a
field of `Host`.  Python exceptions are modelled with `Except PyErr`; a
Python `dict` is an insertion-ordered association list, with assignment
modelled by `dinsert` (update in place if the key exists, append otherwise),
matching CPython dict semantics.  Floating-point percentages and temperatures
are modelled by exact rationals; Python's fixed-point string formatting
(`f"{x:.1f}"`, round-half-even) is modelled by `fmtFixed`.
-/

/-- Python exceptions that the program can raise or catch around the
per-partition disk-usage query: `PermissionError` (caught per item),
`ZeroDivisionError` (from `used / total` when `total = 0`), and any other
exception, carrying its `str(e)` message. -/
inductive PyErr where
  | permissionError (msg : String)
  | zeroDivision
  | other (msg : String)
deriving DecidableEq, Repr

/-- Result of `psutil.disk_usage(mountpoint)`: byte counts. -/
structure DiskUsage where
  total : Nat
  used : Nat
  free : Nat
deriving DecidableEq, Repr

instance {ε α : Type} [DecidableEq ε] [DecidableEq α] : DecidableEq (Except ε α) := fun a b =>
  match a, b with
  | .ok x, .ok y =>
    if h : x = y then isTrue (by rw [h]) else isFalse (by intro hc; cases hc; exact h rfl)
  | .error x, .error y =>
    if h : x = y then isTrue (by rw [h]) else isFalse (by intro hc; cases hc; exact h rfl)
  | .ok _, .error _ => isFalse (by intro hc; cases hc)
  | .error _, .ok _ => isFalse (by intro hc; cases hc)

/-- One element of `psutil.disk_partitions()`, together with the outcome of
the `psutil.disk_usage` query on its mountpoint (the query may raise). -/
structure Partition where
  device : String
  mountpoint : String
  fstype : String
  usage : Except PyErr DiskUsage
deriving DecidableEq, Repr

/-- One temperature sensor reading from `psutil.sensors_temperatures()`:
`label` is `""` when the hardware provides no label; `high`/`critical` are
`none` when the sensor does not report them (Python `None`). -/
structure TempEntry where
  label : String
  current : ℚ
  high : Option ℚ
  critical : Option ℚ
deriving DecidableEq, Repr

/-- One address from `psutil.net_if_addrs()` for an interface. -/
structure NetAddr where
  family : String
  address : String
  netmask : Option String
deriving DecidableEq, Repr

/-- One entry of `psutil.net_if_stats()`. -/
structure NetStats where
  isup : Bool
  speed : Int
deriving DecidableEq, Repr

/-- Result of `psutil.cpu_freq()` when it is not `None`. -/
structure CpuFreq where
  max : ℚ
  current : ℚ
deriving DecidableEq, Repr

/-- `psutil.virtual_memory()`: byte counts and utilization percentage. -/
structure VMem where
  total : Nat
  available : Nat
  percent : ℚ
deriving DecidableEq, Repr

/-- `psutil.swap_memory()`: byte count and utilization percentage. -/
structure Swap where
  total : Nat
  percent : ℚ
deriving DecidableEq, Repr

/-- Result of the `subprocess.run(['wmic', ...])` invocation when it does not
raise. -/
structure Wmic where
  returncode : Int
  stdout : String
deriving DecidableEq, Repr

/-- Snapshot of everything the program reads from the host during one run.
Repeated reads of the same source (e.g. `psutil.disk_partitions()` in both
the disk collector and the health evaluator) observe the same snapshot.
`wmicRun` is `.error msg` when the subprocess call raises with message
`str(e) = msg` (tool not found, timeout); the three `...File` fields are the
contents of the DMI pseudo-files, `none` when the read raises. -/
structure Host where
  platformSystem : String
  nodeName : String
  release : String
  version : String
  machine : String
  processor : String
  arch : String
  pythonVersion : String
  wmicRun : Except String Wmic
  biosVersionFile : Option String
  boardNameFile : Option String
  boardVendorFile : Option String
  physCores : Option Nat
  totalCores : Option Nat
  cpufreq : Option CpuFreq
  cpu_percent : ℚ
  loadavg : Option ℚ
  vm : VMem
  swap : Swap
  sensors : Except Unit (List (String × List TempEntry))
  partitions : List Partition
  net_if_addrs : List (String × List NetAddr)
  net_if_stats : List (String × NetStats)
  timestampStr : String
  uptimeStr : String
  bootTimeStr : String
  scanTimeStr : String
deriving DecidableEq, Repr

/-! ### Python dict and string-formatting primitives -/

/-- CPython dict assignment `m[k] = v` on an insertion-ordered association
list: update in place if the key is present, append otherwise. -/
def dinsert {α : Type} (k : String) (v : α) : List (String × α) → List (String × α)
  | [] => [(k, v)]
  | (k', v') :: rest => if k' == k then (k, v) :: rest else (k', v') :: dinsert k v rest

/-- Python `k in m` for a dict modelled as an association list. -/
def hasKey {α : Type} (k : String) (m : List (String × α)) : Bool :=
  m.any (fun p => p.1 == k)

/-- Decimal digits of a natural number, most significant first, by structural
recursion on a fuel bound. -/
def natDigits : Nat → Nat → List Char
  | 0, _ => []
  | fuel + 1, n =>
    if n < 10 then [Nat.digitChar n]
    else natDigits fuel (n / 10) ++ [Nat.digitChar (n % 10)]

/-- Python `str(n)` for a natural number. -/
def natStr (n : Nat) : String := String.mk (natDigits (n + 1) n)

/-- Python `str(z)` for an integer. -/
def intStr (z : Int) : String :=
  if z < 0 then "-" ++ natStr z.natAbs else natStr z.natAbs

/-- Python `str.strip()` with no argument: remove leading and trailing
whitespace. -/
def pyStrip (s : String) : String :=
  String.mk (((s.data.dropWhile Char.isWhitespace).reverse.dropWhile
    Char.isWhitespace).reverse)

/-- Python `str.lower()` restricted to ASCII casing. -/
def pyLower (s : String) : String := String.mk (s.data.map Char.toLower)

/-- Round a rational to the nearest integer, ties to even: the rounding used
by Python's fixed-point float formatting and by `round`. -/
def roundHalfEven (q : ℚ) : Int :=
  let f := ⌊q⌋
  let r := q - f
  if r < 1/2 then f
  else if 1/2 < r then f + 1
  else if f % 2 = 0 then f else f + 1

/-- Left-pad a digit string with zeros to width `n`. -/
def padZeros (s : String) (n : Nat) : String :=
  if n ≤ s.length then s else String.mk (List.replicate (n - s.length) '0' ++ s.data)

/-- Python `f"{q:.precf}"`: fixed-point rendering of a rational with `prec`
digits after the point, round-half-even. -/
def fmtFixed (prec : Nat) (q : ℚ) : String :=
  let n := roundHalfEven (q * (10 : ℚ) ^ prec)
  let sign := if n < 0 then "-" else ""
  let m := n.natAbs
  sign ++ natStr (m / 10 ^ prec) ++ "." ++ padZeros (natStr (m % 10 ^ prec)) prec

/-- Python `round(q, nd)` on an exact rational. -/
def pyRound (nd : Nat) (q : ℚ) : ℚ :=
  (roundHalfEven (q * (10 : ℚ) ^ nd) : ℚ) / (10 : ℚ) ^ nd

/-- Display of a Python float with no format spec (`str(x)`), used only for
the load average and the raw warning percentages; the exact shortest-repr
algorithm of CPython floats is not modelled further (integral values get the
trailing `.0`, others two decimals). -/
def pyFloatStr (q : ℚ) : String :=
  if q.den == 1 then intStr q.num ++ ".0" else fmtFixed 2 q

/-- A value stored in the CPU collector's dict: Python string, int, float or
`None`. -/
inductive PyVal where
  | str (s : String)
  | int (z : Int)
  | float (q : ℚ)
  | none
deriving DecidableEq, Repr

/-- Python `str(v)` as used when printing a dict value. -/
def pyStr : PyVal → String
  | .str s => s
  | .int z => intStr z
  | .float q => pyFloatStr q
  | .none => "None"

/-- Bytes to gigabytes with two decimals and a `GB` suffix:
`f"{b / (1024**3):.2f} GB"`, shared by the memory and disk collectors. -/
def bytesToGB (b : Nat) : String :=
  fmtFixed 2 ((b : ℚ) / (1024 : ℚ) ^ 3) ++ " GB"

/-! ### Collectors -/

/-- `get_system_info`: basic system identity, always fully populated. -/
def get_system_info (h : Host) : List (String × String) :=
  [("System", h.platformSystem),
   ("Node Name", h.nodeName),
   ("Release", h.release),
   ("Version", h.version),
   ("Machine", h.machine),
   ("Processor", h.processor),
   ("Architecture", h.arch),
   ("Python Version", h.pythonVersion)]

/-- `get_cpu_info`: CPU topology, frequency, usage and load average. -/
def get_cpu_info (h : Host) : List (String × PyVal) :=
  [("Physical Cores", match h.physCores with | some n => .int n | none => .none),
   ("Total Cores", match h.totalCores with | some n => .int n | none => .none),
   ("Max Frequency",
     .str (match h.cpufreq with | some f => fmtFixed 2 f.max ++ " MHz" | none => "N/A")),
   ("Current Frequency",
     .str (match h.cpufreq with | some f => fmtFixed 2 f.current ++ " MHz" | none => "N/A")),
   ("CPU Usage", .str (fmtFixed 1 h.cpu_percent ++ "%")),
   ("Load Average (1min)", match h.loadavg with | some q => .float q | none => .str "N/A")]

/-- `get_memory_info`: RAM and swap, bytes converted to GB. -/
def get_memory_info (h : Host) : List (String × String) :=
  [("Total RAM", bytesToGB h.vm.total),
   ("Available RAM", bytesToGB h.vm.available),
   ("RAM Usage", fmtFixed 1 h.vm.percent ++ "%"),
   ("Total Swap", bytesToGB h.swap.total),
   ("Swap Usage", fmtFixed 1 h.swap.percent ++ "%")]

/-- One formatted reading of the temperature collector. -/
structure TempData where
  label : String
  current : String
  high : String
  critical : String
deriving DecidableEq, Repr

/-- The loop body of `get_temperature_info`: format one sensor entry.
`entry.label or 'N/A'` treats the empty label as absent; `if entry.high`
treats both `None` and `0.0` as falsy (likewise for `critical`). -/
def tempData (e : TempEntry) : TempData :=
  { label := if e.label == "" then "N/A" else e.label,
    current := fmtFixed 1 e.current ++ "°C",
    high := match e.high with
      | Option.none => "N/A"
      | some v => if v == 0 then "N/A" else fmtFixed 1 v ++ "°C",
    critical := match e.critical with
      | Option.none => "N/A"
      | some v => if v == 0 then "N/A" else fmtFixed 1 v ++ "°C" }

/-- A value of the temperature collector's dict: a list of readings for a
sensor group, or the sentinel status string. -/
inductive TempVal where
  | readings (rs : List TempData)
  | status (s : String)
deriving DecidableEq, Repr

/-- `get_temperature_info`: all sensor groups, or a single sentinel entry
when there are no groups or the query raises (bare `except`). -/
def get_temperature_info (h : Host) : List (String × TempVal) :=
  match h.sensors with
  | .error _ => [("Status", .status "Temperature monitoring not available")]
  | .ok temps =>
    let temp_info := temps.foldl
      (fun acc g => dinsert g.1 (TempVal.readings (g.2.map tempData)) acc) []
    if temp_info.isEmpty then [("Status", .status "No temperature sensors detected")]
    else temp_info

/-- The per-partition dict of `get_disk_info` for a readable partition. -/
def diskFields (p : Partition) (u : DiskUsage) : List (String × String) :=
  [("Mountpoint", p.mountpoint),
   ("File System", p.fstype),
   ("Total Size", bytesToGB u.total),
   ("Used", bytesToGB u.used),
   ("Free", bytesToGB u.free),
   ("Usage %", fmtFixed 1 ((u.used : ℚ) / (u.total : ℚ) * 100) ++ "%")]

/-- The partition loop of `get_disk_info`: a `PermissionError` from the usage
query is caught and replaced by the sentinel for that device only; any other
exception (including the `ZeroDivisionError` from `used / total` when
`total = 0`) propagates and aborts the whole collection. -/
def diskGo : List Partition → List (String × List (String × String)) →
    Except PyErr (List (String × List (String × String)))
  | [], acc => .ok acc
  | p :: ps, acc =>
    match p.usage with
    | .ok u =>
      if u.total = 0 then .error .zeroDivision
      else diskGo ps (dinsert p.device (diskFields p u) acc)
    | .error (.permissionError _) =>
      diskGo ps (dinsert p.device [("Status", "Permission denied")] acc)
    | .error e => .error e

/-- `get_disk_info`: per-device usage dicts keyed by device name. -/
def get_disk_info (h : Host) : Except PyErr (List (String × List (String × String))) :=
  diskGo h.partitions []

/-- The per-interface dict of `get_network_info`. -/
structure NetInfo where
  addresses : List NetAddr
  is_up : Bool
  speed : String
deriving DecidableEq, Repr

/-- The per-interface value built by `get_network_info`, cross-referencing
the stats source by interface name. -/
def netInfoOf (h : Host) (p : String × List NetAddr) : NetInfo :=
  { addresses := p.2,
    is_up := match h.net_if_stats.lookup p.1 with
      | some s => s.isup
      | none => false,
    speed := match h.net_if_stats.lookup p.1 with
      | some s => if 0 < s.speed then intStr s.speed ++ " Mbps" else "N/A"
      | none => "N/A" }

/-- `get_network_info`: one entry per interface of the addresses source. -/
def get_network_info (h : Host) : List (String × NetInfo) :=
  h.net_if_addrs.foldl (fun acc p => dinsert p.1 (netInfoOf h p) acc) []

/-- One `key=value` line of the wmic output: kept only when the line contains
`=` and is not blank after stripping, and the value is non-empty after
stripping; the key is stored unstripped (Python `line.split('=', 1)`). -/
def parseWmicLine (acc : List (String × String)) (line : String) : List (String × String) :=
  if line.contains '=' && pyStrip line != "" then
    let parts := line.splitOn "="
    let key := parts.headD ""
    let value := String.intercalate "=" parts.tail
    if pyStrip value != "" then dinsert key (pyStrip value) acc else acc
  else acc

/-- The `try` body of `get_bios_info`: platform-branching collection of the
BIOS/board fields.  Only the subprocess invocation on the Windows branch can
raise; the three pseudo-file reads on the Linux branch are each wrapped in
their own silent `try/except/pass`, and on any other platform nothing is
attempted, so the body returns an empty dict. -/
def biosCollect (h : Host) : Except String (List (String × String)) :=
  if h.platformSystem == "Windows" then
    match h.wmicRun with
    | .error e => .error e
    | .ok r =>
      if r.returncode == 0 then .ok ((r.stdout.splitOn "\n").foldl parseWmicLine [])
      else .ok []
  else if h.platformSystem == "Linux" then
    .ok ((match h.biosVersionFile with
            | some s => [("BIOS Version", pyStrip s)]
            | none => []) ++
         (match h.boardNameFile with
            | some s => [("Board Name", pyStrip s)]
            | none => []) ++
         (match h.boardVendorFile with
            | some s => [("Board Vendor", pyStrip s)]
            | none => []))
  else .ok []

/-- `get_bios_info`: a raise of the `try` body becomes the single `Error`
entry; an empty collected dict becomes the single `Status` sentinel. -/
def get_bios_info (h : Host) : List (String × String) :=
  let bios_info := match biosCollect h with
    | .ok l => l
    | .error e => [("Error", "Could not retrieve BIOS info: " ++ e)]
  if bios_info.isEmpty then [("Status", "BIOS information not accessible")] else bios_info

/-- The partition loop of `check_system_health`: same catch discipline as the
disk collector (`PermissionError` → `continue`, anything else propagates),
adding a warning keyed by device name when usage exceeds 90%. -/
def healthDisk : List Partition → List (String × String) →
    Except PyErr (List (String × String))
  | [], hs => .ok hs
  | p :: ps, hs =>
    match p.usage with
    | .ok u =>
      if u.total = 0 then .error .zeroDivision
      else
        let pct : ℚ := (u.used : ℚ) / (u.total : ℚ) * 100
        if 90 < pct then
          healthDisk ps
            (dinsert ("disk_warning_" ++ p.device)
              ("Low disk space: " ++ fmtFixed 1 pct ++ "% used") hs)
        else healthDisk ps hs
    | .error (.permissionError _) => healthDisk ps hs
    | .error e => .error e

/-- `check_system_health`: timestamp/uptime/boot-time plus the three
threshold checks (CPU > 80, memory > 85, per-partition disk > 90). -/
def check_system_health (h : Host) : Except PyErr (List (String × String)) :=
  let hs : List (String × String) :=
    [("timestamp", h.timestampStr),
     ("uptime", h.uptimeStr),
     ("boot_time", h.bootTimeStr)]
  let hs := if 80 < h.cpu_percent then
      dinsert "cpu_warning" ("High CPU usage: " ++ pyFloatStr h.cpu_percent ++ "%") hs
    else hs
  let hs := if 85 < h.vm.percent then
      dinsert "memory_warning" ("High memory usage: " ++ pyFloatStr h.vm.percent ++ "%") hs
    else hs
  healthDisk h.partitions hs

/-! ### Report renderer (`main`) and top-level handler -/

/-- The `"=" * 60` banner line. -/
def banner : String := String.mk (List.replicate 60 '=')

/-- The `"-" * 30` separator line. -/
def sepLine : String := String.mk (List.replicate 30 '-')

/-- `Label: Value` lines for a string-valued dict. -/
def kvLines (m : List (String × String)) : List String :=
  m.map (fun p => p.1 ++ ": " ++ p.2)

/-- `Label: Value` lines for the CPU collector's mixed-valued dict. -/
def kvLinesP (m : List (String × PyVal)) : List String :=
  m.map (fun p => p.1 ++ ": " ++ pyStr p.2)

/-- Rendering of `print(temp_info['Status'])`: the sentinel string, or — in
the unreachable-for-this-collector case of a sensor group literally named
`Status` — the Python list repr, whose exact text is not modelled further. -/
def tempValStr : TempVal → String
  | .status s => s
  | .readings rs => String.intercalate ", " (rs.map (fun r => r.label))

/-- The temperature section body: the bare sentinel when the dict has a
`Status` key, otherwise one header line per group and one indented line per
reading. -/
def tempLines (t : List (String × TempVal)) : List String :=
  match t.lookup "Status" with
  | some v => [tempValStr v]
  | none =>
    t.flatMap (fun g =>
      (g.1 ++ ":") ::
      (match g.2 with
       | .readings rs => rs.map (fun r =>
           "  " ++ r.label ++ ": " ++ r.current ++
           " (High: " ++ r.high ++ ", Critical: " ++ r.critical ++ ")")
       | .status s => [s]))

/-- The disk section body: device header, indented fields, blank line. -/
def diskLines (d : List (String × List (String × String))) : List String :=
  d.flatMap (fun p =>
    (p.1 ++ ":") :: (p.2.map (fun q => "  " ++ q.1 ++ ": " ++ q.2)) ++ [""])

/-- The network section body: interface header, status, speed, at most two
address lines (`info['addresses'][:2]`), blank line. -/
def netLines (n : List (String × NetInfo)) : List String :=
  n.flatMap (fun p =>
    (p.1 ++ ":") ::
    ("  Status: " ++ (if p.2.is_up then "UP" else "DOWN")) ::
    ("  Speed: " ++ p.2.speed) ::
    ((p.2.addresses.take 2).map (fun a => "  " ++ a.family ++ ": " ++ a.address)) ++ [""])

/-- Python `str.title()` restricted to ASCII casing: the first letter of
every run of letters is uppercased, the rest lowercased. -/
def pyTitle (s : String) : String :=
  (s.data.foldl
    (fun (st : List Char × Bool) c =>
      ((if c.isAlpha then (if st.2 then c.toLower else c.toUpper) else c) :: st.1,
       c.isAlpha))
    ([], false)).1.reverse |> String.mk

/-- Whether the first character list is a prefix of the second. -/
def listPrefix : List Char → List Char → Bool
  | [], _ => true
  | _ :: _, [] => false
  | c :: cs, d :: ds => c == d && listPrefix cs ds

/-- Whether `pat` occurs as a contiguous sublist of `l`. -/
def listSub (pat : List Char) : List Char → Bool
  | [] => pat.isEmpty
  | l@(_ :: rest) => listPrefix pat l || listSub pat rest

/-- Python `pat in s` (substring containment). -/
def containsSub (s pat : String) : Bool := listSub pat.data s.data

/-- One line of the health section: keys containing `warning` (case
insensitive) get the warning glyph; keys are title-cased with underscores
replaced by spaces. -/
def healthLine (p : String × String) : String :=
  let shown := pyTitle (String.mk (p.1.data.map (fun c => if c = '_' then ' ' else c))) ++ ": " ++ p.2
  if containsSub (pyLower p.1) "warning" then "⚠️  " ++ shown else shown

/-- The banner, title and scan-time lines printed before the first section. -/
def introLines (h : Host) : List String :=
  [banner, "MOTHERBOARD & SYSTEM STATUS CHECK", banner,
   "Scan Time: " ++ h.scanTimeStr, ""]

/-- `str(e)` of a propagated exception as printed by the top-level handler. -/
def pyErrMsg : PyErr → String
  | .permissionError msg => msg
  | .zeroDivision => "division by zero"
  | .other msg => msg

/-- The two lines printed by the top-level `except Exception` handler. -/
def handlerLines (e : PyErr) : List String :=
  ["Error running system check: " ++ pyErrMsg e,
   "Make sure you're running with appropriate permissions."]

/-- The first five sections of `main`, whose collectors cannot raise, in
program order, each as its header line paired with its body lines. -/
def preDiskSections (h : Host) : List (String × List String) :=
  [("SYSTEM INFORMATION:", sepLine :: kvLines (get_system_info h) ++ [""]),
   ("BIOS/MOTHERBOARD INFORMATION:", sepLine :: kvLines (get_bios_info h) ++ [""]),
   ("CPU STATUS:", sepLine :: kvLinesP (get_cpu_info h) ++ [""]),
   ("MEMORY STATUS:", sepLine :: kvLines (get_memory_info h) ++ [""]),
   ("TEMPERATURE SENSORS:", sepLine :: tempLines (get_temperature_info h) ++ [""])]

/-- The sections of `main`, in program order, each as its header line paired
with its body lines.  `main` prints a section's header and its separator
before calling the collector, so when `get_disk_info` (respectively
`check_system_health`) raises, the aborted run still contains that section's
header with the bare separator as its only body line; the exception is
returned alongside everything printed up to that point. -/
def mainSections (h : Host) : List (String × List String) × Option PyErr :=
  match get_disk_info h with
  | .error e => (preDiskSections h ++ [("DISK STATUS:", [sepLine])], some e)
  | .ok dm =>
    let s6 := ("DISK STATUS:", sepLine :: diskLines dm)
    let s7 := ("NETWORK INTERFACES:", sepLine :: netLines (get_network_info h))
    match check_system_health h with
    | .error e =>
      (preDiskSections h ++ [s6, s7, ("SYSTEM HEALTH CHECK:", [sepLine])], some e)
    | .ok hm =>
      (preDiskSections h ++
        [s6, s7, ("SYSTEM HEALTH CHECK:", sepLine :: hm.map healthLine ++ [""])], none)

/-- The full standard-output line sequence of one program run, including the
top-level handler's output when an exception escapes `main`. -/
def runProgram (h : Host) : List String :=
  let se := mainSections h
  introLines h ++ se.1.flatMap (fun s => s.1 :: s.2) ++
  (match se.2 with
   | none => [banner, "SCAN COMPLETE", banner]
   | some e => handlerLines e)

/-! ### Concrete hosts used as witnesses and counterexamples -/

/-- The addresses bound to the example interface of `hOk`. -/
def eth0Addrs : List NetAddr :=
  [⟨"AddressFamily.AF_INET", "192.168.1.2", some "255.255.255.0"⟩,
   ⟨"AddressFamily.AF_INET6", "fe80::1", some "ffff::"⟩,
   ⟨"AddressFamily.AF_PACKET", "aa:bb:cc:dd:ee:ff", none⟩]

/-- A fully healthy Linux host on which every collector succeeds. -/
def hOk : Host :=
  { platformSystem := "Linux"
    nodeName := "devbox"
    release := "6.8.0"
    version := "#1 SMP"
    machine := "x86_64"
    processor := "x86_64"
    arch := "64bit"
    pythonVersion := "3.11.4"
    wmicRun := .ok ⟨1, ""⟩
    biosVersionFile := some "F31\n"
    boardNameFile := some "B550 AORUS"
    boardVendorFile := some "Gigabyte"
    physCores := some 6
    totalCores := some 12
    cpufreq := some ⟨4600, 2200⟩
    cpu_percent := 10
    loadavg := some (1/2)
    vm := ⟨17179869184, 8589934592, 50⟩
    swap := ⟨2147483648, 0⟩
    sensors := .ok [("coretemp", [⟨"Core 0", 45, some 80, some 100⟩])]
    partitions := [⟨"/dev/sda1", "/", "ext4", .ok ⟨107374182400, 53687091200, 53687091200⟩⟩]
    net_if_addrs := [("eth0", eth0Addrs)]
    net_if_stats := [("eth0", ⟨true, 1000⟩)]
    timestampStr := "2026-10-12 10:00:02"
    uptimeStr := "1:00:00"
    bootTimeStr := "2026-10-12 09:00:02"
    scanTimeStr := "2026-10-12 10:00:00" }

/-- A Linux host whose BIOS-version pseudo-file read raises. -/
def hBx : Host := { hOk with biosVersionFile := none }

/-- A host on a third platform category. -/
def hB1 : Host := { hOk with platformSystem := "Darwin" }

/-- A Windows-like host whose wmic invocation raises. -/
def hB2 : Host :=
  { hOk with platformSystem := "Windows", wmicRun := .error "tool not found" }

/-- A host whose temperature query raises. -/
def hTe : Host := { hOk with sensors := .error () }

/-- A host exposing zero temperature sensor groups. -/
def hT0 : Host := { hOk with sensors := .ok [] }

/-! ### General lemmas about the embedding -/

theorem dinsert_ne_nil {α : Type} (k : String) (v : α) (m : List (String × α)) :
    dinsert k v m ≠ [] := by
  cases m with
  | nil => simp [dinsert]
  | cons p rest =>
    simp only [dinsert]
    split <;> simp

theorem degC_ne_NA (s : String) : s ++ "°C" ≠ "N/A" := by
  intro hEq
  have h2 : (s ++ "°C").data = "N/A".data := by rw [hEq]
  rw [String.data_append] at h2
  have h3 : s.data.length = 1 := by
    have h4 := congrArg List.length h2
    rw [List.length_append, show ("°C" : String).data.length = 2 from rfl,
      show ("N/A" : String).data.length = 3 from rfl] at h4
    omega
  obtain ⟨c, hc⟩ := List.length_eq_one.mp h3
  rw [hc] at h2
  simp at h2

theorem mbps_ne_NA (s : String) : s ++ " Mbps" ≠ "N/A" := by
  intro hEq
  have h2 := congrArg List.length (congrArg String.data hEq)
  rw [String.data_append, List.length_append,
    show (" Mbps" : String).data.length = 5 from rfl,
    show ("N/A" : String).data.length = 3 from rfl] at h2
  omega

theorem mhz_ne_NA (s : String) : s ++ " MHz" ≠ "N/A" := by
  intro hEq
  have h2 := congrArg List.length (congrArg String.data hEq)
  rw [String.data_append, List.length_append,
    show (" MHz" : String).data.length = 4 from rfl,
    show ("N/A" : String).data.length = 3 from rfl] at h2
  omega

theorem diskKey_ne_cpu (d : String) : "disk_warning_" ++ d ≠ "cpu_warning" := by
  intro hEq
  have h2 := congrArg List.length (congrArg String.data hEq)
  rw [String.data_append, List.length_append,
    show ("disk_warning_" : String).data.length = 13 from rfl,
    show ("cpu_warning" : String).data.length = 11 from rfl] at h2
  omega

theorem diskKey_ne_mem (d : String) : "disk_warning_" ++ d ≠ "memory_warning" := by
  intro hEq
  have h2 := congrArg String.data hEq
  rw [String.data_append,
    show ("disk_warning_" : String).data = 'd' :: "isk_warning_".data from rfl,
    show ("memory_warning" : String).data = 'm' :: "emory_warning".data from rfl] at h2
  simp at h2

theorem diskKey_ne_timestamp (d : String) : "disk_warning_" ++ d ≠ "timestamp" := by
  intro hEq
  have h2 := congrArg List.length (congrArg String.data hEq)
  rw [String.data_append, List.length_append,
    show ("disk_warning_" : String).data.length = 13 from rfl,
    show ("timestamp" : String).data.length = 9 from rfl] at h2
  omega

theorem diskKey_ne_uptime (d : String) : "disk_warning_" ++ d ≠ "uptime" := by
  intro hEq
  have h2 := congrArg List.length (congrArg String.data hEq)
  rw [String.data_append, List.length_append,
    show ("disk_warning_" : String).data.length = 13 from rfl,
    show ("uptime" : String).data.length = 6 from rfl] at h2
  omega

theorem diskKey_ne_boot (d : String) : "disk_warning_" ++ d ≠ "boot_time" := by
  intro hEq
  have h2 := congrArg List.length (congrArg String.data hEq)
  rw [String.data_append, List.length_append,
    show ("disk_warning_" : String).data.length = 13 from rfl,
    show ("boot_time" : String).data.length = 9 from rfl] at h2
  omega

theorem diskKey_inj {a b : String} (hEq : "disk_warning_" ++ a = "disk_warning_" ++ b) :
    a = b := by
  have h2 := congrArg String.data hEq
  rw [String.data_append, String.data_append] at h2
  exact String.ext (List.append_cancel_left h2)

theorem hasKey_iff_mem {α : Type} {k : String} {m : List (String × α)} :
    hasKey k m = true ↔ k ∈ m.map Prod.fst := by
  simp [hasKey, List.any_eq_true, List.mem_map]

theorem keys_dinsert_mem {α : Type} {k k' : String} {v : α} {m : List (String × α)} :
    k' ∈ ((dinsert k v m).map Prod.fst) ↔ k' = k ∨ k' ∈ m.map Prod.fst := by
  induction m with
  | nil => simp [dinsert]
  | cons p rest ih =>
    simp only [dinsert]
    split
    · rename_i hpk
      have hp : p.1 = k := by simpa using hpk
      simp [hp]
    · simp [ih]
      tauto

theorem hasKey_dinsert_iff {α : Type} {k k' : String} {v : α} {m : List (String × α)} :
    hasKey k' (dinsert k v m) = true ↔ k' = k ∨ hasKey k' m = true := by
  rw [hasKey_iff_mem, hasKey_iff_mem, keys_dinsert_mem]

theorem dinsert_eq_append {α : Type} (k : String) (v : α) (m : List (String × α))
    (h : hasKey k m = false) : dinsert k v m = m ++ [(k, v)] := by
  induction m with
  | nil => simp [dinsert]
  | cons p rest ih =>
    simp only [hasKey, List.any_cons, Bool.or_eq_false_iff] at h
    simp only [dinsert]
    rw [if_neg (by simp [h.1]), ih h.2]
    rfl

theorem roundHalfEven_intCast (m : Int) : roundHalfEven (m : ℚ) = m := by
  simp [roundHalfEven]

theorem fmtFixed_pyRound (q : ℚ) : fmtFixed 1 (pyRound 1 q) = fmtFixed 1 q := by
  have h1 : pyRound 1 q * (10 : ℚ) ^ 1 = (roundHalfEven (q * (10 : ℚ) ^ 1) : ℚ) := by
    rw [pyRound]
    field_simp
  rw [fmtFixed, fmtFixed, h1, roundHalfEven_intCast]

/-! ### Claim theorems -/

/-- Claim C6: all byte-to-gigabyte conversions in the Memory and Disk
collectors divide the byte count by 1024³ and format the result to two
decimal places with a " GB" suffix; in particular 1073741824 bytes renders
as "1.00 GB" and 0 bytes renders as "0.00 GB". -/
theorem c6_bytes_to_gb :
    bytesToGB 1073741824 = "1.00 GB" ∧ bytesToGB 0 = "0.00 GB" ∧
    (∀ b : Nat, bytesToGB b = fmtFixed 2 ((b : ℚ) / (1024 : ℚ) ^ 3) ++ " GB") ∧
    (∀ h : Host,
      (get_memory_info h).lookup "Total RAM" = some (bytesToGB h.vm.total) ∧
      (get_memory_info h).lookup "Available RAM" = some (bytesToGB h.vm.available) ∧
      (get_memory_info h).lookup "Total Swap" = some (bytesToGB h.swap.total)) ∧
    (∀ (p : Partition) (u : DiskUsage),
      (diskFields p u).lookup "Total Size" = some (bytesToGB u.total) ∧
      (diskFields p u).lookup "Used" = some (bytesToGB u.used) ∧
      (diskFields p u).lookup "Free" = some (bytesToGB u.free)) :=
  ⟨by with_unfolding_all rfl, by with_unfolding_all rfl,
   fun b => rfl,
   fun h => ⟨rfl, rfl, rfl⟩,
   fun p u => ⟨rfl, rfl, rfl⟩⟩

/-- Claim C4: the Temperature Collector never fails to return a (non-empty)
mapping: when the sensor query raises it returns exactly the single
"Temperature monitoring not available" sentinel entry, and when the host
exposes zero sensor groups it returns exactly the single "No temperature
sensors detected" sentinel entry, never an empty or partial collection. -/
theorem c4_temperature_robust (h : Host) :
    get_temperature_info h ≠ [] ∧
    (h.sensors = .error () → get_temperature_info h =
      [("Status", TempVal.status "Temperature monitoring not available")]) ∧
    (h.sensors = .ok [] → get_temperature_info h =
      [("Status", TempVal.status "No temperature sensors detected")]) := by
  refine ⟨?_, fun he => by simp [get_temperature_info, he], fun he => by
    simp [get_temperature_info, he]⟩
  rw [get_temperature_info]
  cases h.sensors with
  | error e => simp
  | ok temps =>
    simp only
    split
    · simp
    · rename_i hne
      intro hnil
      rw [hnil] at hne
      simp at hne

/-- Claim C4 witness: the theorem applied to a host whose sensor query
raises and to a host with zero sensor groups. -/
theorem c4_temperature_robust_witness :
    get_temperature_info hTe =
      [("Status", TempVal.status "Temperature monitoring not available")] ∧
    get_temperature_info hT0 =
      [("Status", TempVal.status "No temperature sensors detected")] :=
  ⟨(c4_temperature_robust hTe).2.1 rfl, (c4_temperature_robust hT0).2.2 rfl⟩

/-- Claim C5: the BIOS/Board Collector never raises: on a platform that is
neither Windows nor Linux it returns exactly the single "not accessible"
sentinel entry; whenever the `try` body collected nothing (without raising)
it likewise returns exactly that single sentinel entry; a failure of the
external query tool on Windows is caught and converted into a single
"Error: ..." entry; and the result is never empty. -/
theorem c5_bios_robust (h : Host) :
    (h.platformSystem ≠ "Windows" → h.platformSystem ≠ "Linux" →
      get_bios_info h = [("Status", "BIOS information not accessible")]) ∧
    (biosCollect h = .ok [] →
      get_bios_info h = [("Status", "BIOS information not accessible")]) ∧
    (∀ msg, h.platformSystem = "Windows" → h.wmicRun = .error msg →
      get_bios_info h = [("Error", "Could not retrieve BIOS info: " ++ msg)]) ∧
    get_bios_info h ≠ [] := by
  refine ⟨fun hw hl => ?_, fun hc => ?_, fun msg hw hrun => ?_, ?_⟩
  · simp [get_bios_info, biosCollect, hw, hl]
  · simp [get_bios_info, hc]
  · simp [get_bios_info, biosCollect, hw, hrun]
  · have key : ∀ l : List (String × String),
        (if l.isEmpty = true then [("Status", "BIOS information not accessible")] else l)
          ≠ [] := by
      intro l
      split
      · simp
      · rename_i hne
        intro hnil
        rw [hnil] at hne
        simp at hne
    simp only [get_bios_info]
    exact key _

/-- A Linux host on which all three DMI pseudo-file reads raise, so the
`try` body collects nothing. -/
def hB3 : Host :=
  { hOk with biosVersionFile := none, boardNameFile := none, boardVendorFile := none }

/-- A Windows-like host whose wmic invocation exits with a nonzero status,
so the `try` body collects nothing. -/
def hB4 : Host := { hOk with platformSystem := "Windows", wmicRun := .ok ⟨1, ""⟩ }

/-- Claim C5 witness: the theorem applied to a third-platform host, to a
Linux host with all DMI reads failing, to a Windows host whose wmic exits
nonzero, to a Windows host whose wmic call raises, and to an ordinary Linux
host. -/
theorem c5_bios_robust_witness :
    get_bios_info hB1 = [("Status", "BIOS information not accessible")] ∧
    get_bios_info hB3 = [("Status", "BIOS information not accessible")] ∧
    get_bios_info hB4 = [("Status", "BIOS information not accessible")] ∧
    get_bios_info hB2 = [("Error", "Could not retrieve BIOS info: tool not found")] ∧
    get_bios_info hOk ≠ [] :=
  ⟨(c5_bios_robust hB1).1 (by decide) (by decide),
   (c5_bios_robust hB3).2.1 (by with_unfolding_all rfl),
   (c5_bios_robust hB4).2.1 (by with_unfolding_all rfl),
   (c5_bios_robust hB2).2.2.1 "tool not found" rfl rfl,
   (c5_bios_robust hOk).2.2.2⟩

/-- Claim C3 counterexample: on a Linux host whose BIOS-version pseudo-file
read fails while the board files are readable, the BIOS/Board collector's
output contains no "BIOS Version" key at all — the advertised label is
silently dropped rather than kept with a sentinel value. -/
theorem c3_counterexample :
    get_bios_info hBx = [("Board Name", "B550 AORUS"), ("Board Vendor", "Gigabyte")] ∧
    hasKey "BIOS Version" (get_bios_info hBx) = false := by
  refine ⟨?_, ?_⟩ <;> with_unfolding_all rfl

/-- Claim C3 (amended): the CPU and Memory collectors emit every advertised
label on every input, with sentinel values standing in for absent host data;
the BIOS/Board collector, by contrast, silently omits a field whose source
is unreadable (shown for the "BIOS Version" field on Linux), falling back to
a single sentinel entry only when nothing at all was collected. -/
theorem c3_labels :
    (∀ h : Host, (get_cpu_info h).map Prod.fst =
      ["Physical Cores", "Total Cores", "Max Frequency", "Current Frequency",
       "CPU Usage", "Load Average (1min)"]) ∧
    (∀ h : Host, (get_memory_info h).map Prod.fst =
      ["Total RAM", "Available RAM", "RAM Usage", "Total Swap", "Swap Usage"]) ∧
    (∀ h : Host, h.platformSystem = "Linux" → h.biosVersionFile = Option.none →
      hasKey "BIOS Version" (get_bios_info h) = false) := by
  refine ⟨fun h => rfl, fun h => rfl, fun h hl hb => ?_⟩
  cases hbn : h.boardNameFile <;> cases hbv : h.boardVendorFile <;>
    simp [get_bios_info, biosCollect, hl, hb, hbn, hbv, hasKey]

/-- Claim C3 witness: the amended BIOS clause applied to the concrete Linux
host with an unreadable BIOS-version file. -/
theorem c3_labels_witness : hasKey "BIOS Version" (get_bios_info hBx) = false :=
  c3_labels.2.2 hBx rfl rfl

/-- A sensor entry whose reported high threshold is 0.0. -/
def eHighZero : TempEntry := ⟨"edge", 50, some 0, some 95⟩

/-- Claim C8 counterexample: a sensor entry that reports a high threshold of
exactly 0.0 is rendered as "N/A" even though the sensor does report the
value (Python truthiness conflates 0.0 with None), refuting "rendered as
N/A exactly when the sensor does not report them". -/
theorem c8_counterexample :
    ¬ (((tempData eHighZero).high = "N/A") ↔ eHighZero.high = Option.none) :=
  of_decide_eq_true (by with_unfolding_all rfl)

/-- Claim C8 (amended): for every sensor reading, the label field is the
sensor's default label or "N/A" when the hardware provides none (empty
label), the current field is the temperature at one decimal with a "°C"
suffix, and the high and critical fields are "N/A" exactly when the sensor
does not report them or reports the Python-falsy value 0.0, and otherwise
the reported threshold at one decimal with a "°C" suffix. -/
theorem c8_temp_entry_format (e : TempEntry) :
    (tempData e).label = (if e.label = "" then "N/A" else e.label) ∧
    (tempData e).current = fmtFixed 1 e.current ++ "°C" ∧
    ((tempData e).high = "N/A" ↔ (e.high = Option.none ∨ e.high = some 0)) ∧
    (∀ v, e.high = some v → v ≠ 0 → (tempData e).high = fmtFixed 1 v ++ "°C") ∧
    ((tempData e).critical = "N/A" ↔ (e.critical = Option.none ∨ e.critical = some 0)) ∧
    (∀ v, e.critical = some v → v ≠ 0 → (tempData e).critical = fmtFixed 1 v ++ "°C") := by
  refine ⟨?_, rfl, ?_, fun v hv hvne => by simp [tempData, hv, hvne], ?_,
    fun v hv hvne => by simp [tempData, hv, hvne]⟩
  · by_cases hl : e.label = "" <;> simp [tempData, hl]
  · rcases hh : e.high with _ | v
    · simp [tempData, hh]
    · by_cases hv : v = 0 <;> simp [tempData, hh, hv, degC_ne_NA]
  · rcases hh : e.critical with _ | v
    · simp [tempData, hh]
    · by_cases hv : v = 0 <;> simp [tempData, hh, hv, degC_ne_NA]

/-- A sensor entry with a nonzero high threshold and no critical one. -/
def eNormal : TempEntry := ⟨"Core 1", 42, some 81, Option.none⟩

/-- Claim C8 witness: the amended theorem applied to a concrete entry with a
reported nonzero high threshold and an unreported critical threshold. -/
theorem c8_temp_entry_format_witness :
    (tempData eNormal).high = fmtFixed 1 81 ++ "°C" ∧
    ((tempData eNormal).critical = "N/A" ↔
      (eNormal.critical = Option.none ∨ eNormal.critical = some 0)) :=
  ⟨(c8_temp_entry_format eNormal).2.2.2.1 81 rfl (by norm_num),
   (c8_temp_entry_format eNormal).2.2.2.2.1⟩

theorem hasKey_eq_false_iff {α : Type} {k : String} {m : List (String × α)} :
    hasKey k m = false ↔ k ∉ m.map Prod.fst := by
  rw [← hasKey_iff_mem]
  cases hk : hasKey k m <;> simp

theorem foldl_dinsert_eq_append {β α : Type} (key : β → String) (val : β → α) :
    ∀ (l : List β) (acc : List (String × α)),
    (∀ b ∈ l, hasKey (key b) acc = false) → (l.map key).Nodup →
    l.foldl (fun acc b => dinsert (key b) (val b) acc) acc =
      acc ++ l.map (fun b => (key b, val b))
  | [], acc, _, _ => by simp
  | b :: bs, acc, hfresh, hnd => by
    simp only [List.foldl_cons]
    rw [dinsert_eq_append _ _ _ (hfresh b (by simp))]
    have hnd2 : (bs.map key).Nodup := by
      simp only [List.map_cons, List.nodup_cons] at hnd
      exact hnd.2
    have hkb : key b ∉ bs.map key := by
      simp only [List.map_cons, List.nodup_cons] at hnd
      exact hnd.1
    rw [foldl_dinsert_eq_append key val bs (acc ++ [(key b, val b)]) ?_ hnd2]
    · simp
    · intro q hq
      rw [hasKey_eq_false_iff]
      simp only [List.map_append, List.mem_append]
      rintro (hmem | hmem)
      · exact absurd hmem (hasKey_eq_false_iff.mp (hfresh q (by simp [hq])))
      · simp at hmem
        exact hkb (hmem ▸ List.mem_map_of_mem key hq)

theorem lookup_map_of_mem {β α : Type} (key : β → String) (val : β → α) :
    ∀ (l : List β), (l.map key).Nodup → ∀ b ∈ l,
    (l.map (fun x => (key x, val x))).lookup (key b) = some (val b)
  | [], _, b, hmem => by simp at hmem
  | x :: xs, hnd, b, hmem => by
    rcases List.mem_cons.mp hmem with hEq | hmem2
    · subst hEq
      simp [List.lookup]
    · have hne : (key b == key x) = false := by
        simp only [List.map_cons, List.nodup_cons] at hnd
        have : key b ∈ xs.map key := List.mem_map_of_mem key hmem2
        rw [beq_eq_false_iff_ne]
        intro hc
        exact hnd.1 (hc ▸ this)
      have hnd2 : (xs.map key).Nodup := by
        simp only [List.map_cons, List.nodup_cons] at hnd
        exact hnd.2
      simp only [List.map_cons, List.lookup, hne]
      exact lookup_map_of_mem key val xs hnd2 b hmem2

theorem get_network_info_eq (h : Host) (hnd : (h.net_if_addrs.map Prod.fst).Nodup) :
    get_network_info h =
      h.net_if_addrs.map (fun p => (Prod.fst p, netInfoOf h p)) := by
  rw [get_network_info,
    foldl_dinsert_eq_append Prod.fst (netInfoOf h) h.net_if_addrs []
      (by intro b _; simp [hasKey]) hnd]
  simp

/-- Claim C9: for every interface of the interface-addresses source, the
Network Collector reports speed "N/A" exactly when the interface has no
stats entry or its reported speed is not positive (otherwise "speed Mbps"),
reports an interface with no stats entry as down, and returns the full bound
address list; only the renderer truncates the list, to at most 2 addresses
per interface. -/
theorem c9_network (h : Host) (hnd : (h.net_if_addrs.map Prod.fst).Nodup)
    (name : String) (addrs : List NetAddr)
    (hmem : (name, addrs) ∈ h.net_if_addrs) :
    ∃ info : NetInfo,
      (get_network_info h).lookup name = some info ∧
      info.addresses = addrs ∧
      (h.net_if_stats.lookup name = Option.none → info.is_up = false) ∧
      (info.speed = "N/A" ↔ (h.net_if_stats.lookup name = Option.none ∨
        ∃ s, h.net_if_stats.lookup name = some s ∧ s.speed ≤ 0)) ∧
      (∀ s, h.net_if_stats.lookup name = some s → 0 < s.speed →
        info.speed = intStr s.speed ++ " Mbps") ∧
      ∃ pre post, netLines (get_network_info h) =
        pre ++ ((name ++ ":") ::
          ("  Status: " ++ (if info.is_up then "UP" else "DOWN")) ::
          ("  Speed: " ++ info.speed) ::
          ((addrs.take 2).map (fun a => "  " ++ a.family ++ ": " ++ a.address)) ++ [""])
          ++ post := by
  refine ⟨netInfoOf h (name, addrs), ?_, rfl, ?_, ?_, ?_, ?_⟩
  · rw [get_network_info_eq h hnd]
    exact lookup_map_of_mem Prod.fst (netInfoOf h) h.net_if_addrs hnd (name, addrs) hmem
  · intro hst
    simp [netInfoOf, hst]
  · cases hst : h.net_if_stats.lookup name with
    | none => simp [netInfoOf, hst]
    | some s =>
      by_cases hsp : 0 < s.speed
      · simp [netInfoOf, hst, hsp, mbps_ne_NA]
      · simp [netInfoOf, hst, hsp]
        omega
  · intro s hst hsp
    simp [netInfoOf, hst, hsp]
  · rw [get_network_info_eq h hnd]
    obtain ⟨s, t, hsplit⟩ :=
      List.append_of_mem (List.mem_map_of_mem (fun p => (Prod.fst p, netInfoOf h p)) hmem)
    refine ⟨netLines s, netLines t, ?_⟩
    rw [hsplit]
    simp only [netLines, List.flatMap_append, List.flatMap_cons, List.append_assoc]
    rfl

/-- Claim C9 witness: the theorem applied to the eth0 interface of the
healthy host, whose stats entry reports a positive speed. -/
theorem c9_network_witness :
    ∃ info : NetInfo,
      (get_network_info hOk).lookup "eth0" = some info ∧
      info.addresses = eth0Addrs ∧
      (hOk.net_if_stats.lookup "eth0" = Option.none → info.is_up = false) ∧
      (info.speed = "N/A" ↔ (hOk.net_if_stats.lookup "eth0" = Option.none ∨
        ∃ s, hOk.net_if_stats.lookup "eth0" = some s ∧ s.speed ≤ 0)) ∧
      (∀ s, hOk.net_if_stats.lookup "eth0" = some s → 0 < s.speed →
        info.speed = intStr s.speed ++ " Mbps") ∧
      ∃ pre post, netLines (get_network_info hOk) =
        pre ++ (("eth0" ++ ":") ::
          ("  Status: " ++ (if info.is_up then "UP" else "DOWN")) ::
          ("  Speed: " ++ info.speed) ::
          ((eth0Addrs.take 2).map (fun a => "  " ++ a.family ++ ": " ++ a.address)) ++ [""])
          ++ post :=
  c9_network hOk (by decide) "eth0" eth0Addrs (by decide)

/-- A partition's usage query either succeeds with a positive total or
raises a `PermissionError`: the per-partition condition under which both the
disk collector and the health evaluator complete. -/
def readableOrPerm (p : Partition) : Prop :=
  (∃ u, p.usage = Except.ok u ∧ 0 < u.total) ∨
  (∃ msg, p.usage = Except.error (PyErr.permissionError msg))

/-- The entry the disk collector produces for one partition (assuming the
usage query does not propagate an exception). -/
def diskEntry (p : Partition) : List (String × String) :=
  match p.usage with
  | .ok u => diskFields p u
  | .error _ => [("Status", "Permission denied")]

theorem diskGo_eq :
    ∀ (ps : List Partition) (acc : List (String × List (String × String))),
    (∀ p ∈ ps, readableOrPerm p) →
    (ps.map Partition.device).Nodup →
    (∀ p ∈ ps, hasKey p.device acc = false) →
    diskGo ps acc = .ok (acc ++ ps.map (fun p => (p.device, diskEntry p)))
  | [], acc, _, _, _ => by simp [diskGo]
  | p :: ps, acc, hcond, hnd, hfresh => by
    have hnd2 : (ps.map Partition.device).Nodup := by
      simp only [List.map_cons, List.nodup_cons] at hnd
      exact hnd.2
    have hdev : p.device ∉ ps.map Partition.device := by
      simp only [List.map_cons, List.nodup_cons] at hnd
      exact hnd.1
    have hfresh2 : ∀ q ∈ ps, hasKey q.device (acc ++ [(p.device, diskEntry p)]) = false := by
      intro q hq
      rw [hasKey_eq_false_iff]
      simp only [List.map_append, List.mem_append]
      rintro (hmem | hmem)
      · exact absurd hmem (hasKey_eq_false_iff.mp (hfresh q (by simp [hq])))
      · simp at hmem
        exact hdev (hmem ▸ List.mem_map_of_mem Partition.device hq)
    rcases hcond p (by simp) with ⟨u, hu, hpos⟩ | ⟨msg, hperm⟩
    · rw [show diskGo (p :: ps) acc = (if u.total = 0 then Except.error PyErr.zeroDivision
        else diskGo ps (dinsert p.device (diskFields p u) acc)) from by rw [diskGo, hu],
        if_neg (by omega),
        dinsert_eq_append _ _ _ (hfresh p (by simp)),
        diskGo_eq ps _ (fun q hq => hcond q (by simp [hq])) hnd2
          (by simpa [diskEntry, hu] using hfresh2)]
      simp [diskEntry, hu]
    · rw [show diskGo (p :: ps) acc =
          diskGo ps (dinsert p.device [("Status", "Permission denied")] acc) from by
            rw [diskGo, hperm],
        dinsert_eq_append _ _ _ (hfresh p (by simp)),
        diskGo_eq ps _ (fun q hq => hcond q (by simp [hq])) hnd2
          (by simpa [diskEntry, hperm] using hfresh2)]
      simp [diskEntry, hperm]

/-- Claim C2 (amended): for a host whose N mounted partitions have pairwise
distinct device names and of which exactly K raise a permission error on the
usage query, the disk collector returns N entries keyed by device name: the
K permission-failing partitions map to exactly the "Permission denied"
sentinel, the other N−K map to all six fields (including the five usage
fields) with the "Usage %" field equal to round(used/total*100, 1) rendered
to one decimal with a "%" suffix; a permission failure on one mountpoint
does not abort collection of the remaining partitions. -/
theorem c2_disk_collect (h : Host)
    (hnd : (h.partitions.map Partition.device).Nodup)
    (hread : ∀ p ∈ h.partitions, readableOrPerm p) :
    ∃ m, get_disk_info h = .ok m ∧
      m.length = h.partitions.length ∧
      m.countP (fun e => e.2 == [("Status", "Permission denied")]) =
        h.partitions.countP (fun p => !p.usage.isOk) ∧
      (∀ p ∈ h.partitions, ∀ msg, p.usage = Except.error (.permissionError msg) →
        m.lookup p.device = some [("Status", "Permission denied")]) ∧
      (∀ p ∈ h.partitions, ∀ u, p.usage = Except.ok u →
        m.lookup p.device = some (diskFields p u) ∧
        (diskFields p u).map Prod.fst =
          ["Mountpoint", "File System", "Total Size", "Used", "Free", "Usage %"] ∧
        (diskFields p u).lookup "Usage %" =
          some (fmtFixed 1 (pyRound 1 ((u.used : ℚ) / (u.total : ℚ) * 100)) ++ "%")) := by
  refine ⟨h.partitions.map (fun p => (p.device, diskEntry p)), ?_, by simp, ?_, ?_, ?_⟩
  · rw [get_disk_info, diskGo_eq h.partitions [] hread hnd (by intro p _; simp [hasKey])]
    simp
  · rw [List.countP_map]
    apply List.countP_congr
    intro p hp
    rcases hread p hp with ⟨u, hu, _⟩ | ⟨msg, hperm⟩
    · have hne : (diskFields p u == [("Status", "Permission denied")]) = false := by
        rw [beq_eq_false_iff_ne]
        intro hc
        have hlen := congrArg List.length hc
        simp [diskFields] at hlen
      simp [Function.comp, diskEntry, hu, hne, Except.isOk, Except.toBool]
    · simp [Function.comp, diskEntry, hperm, Except.isOk, Except.toBool]
  · intro p hp msg hperm
    rw [lookup_map_of_mem Partition.device diskEntry h.partitions hnd p hp]
    simp [diskEntry, hperm]
  · intro p hp u hu
    refine ⟨?_, rfl, ?_⟩
    · rw [lookup_map_of_mem Partition.device diskEntry h.partitions hnd p hp]
      simp [diskEntry, hu]
    · rw [fmtFixed_pyRound]
      rfl

/-- A host with two mounted partitions that share one device name. -/
def hDup : Host :=
  { hOk with partitions :=
    [⟨"/dev/sda1", "/", "ext4", .ok ⟨1073741824, 536870912, 536870912⟩⟩,
     ⟨"/dev/sda1", "/snap", "squashfs", .ok ⟨1073741824, 1020054732, 53687092⟩⟩] }

/-- Claim C2 counterexample: with N = 2 mounted partitions sharing one
device name, the returned mapping has a single entry (the second partition
overwrites the first in the device-keyed dict), not N entries. -/
theorem c2_counterexample :
    hDup.partitions.length = 2 ∧
    get_disk_info hDup = .ok [("/dev/sda1",
      [("Mountpoint", "/snap"), ("File System", "squashfs"),
       ("Total Size", "1.00 GB"), ("Used", "0.95 GB"), ("Free", "0.05 GB"),
       ("Usage %", "95.0%")])] := by
  refine ⟨rfl, ?_⟩
  with_unfolding_all rfl

/-- A host with one readable partition at 95% usage and one partition whose
usage query raises a permission error. -/
def hC2 : Host :=
  { hOk with partitions :=
    [⟨"/dev/sda1", "/", "ext4", .ok ⟨107374182400, 102005473280, 5368709120⟩⟩,
     ⟨"/dev/sdb1", "/secret", "ext4", .error (.permissionError "denied")⟩] }

/-- Claim C2 witness: the amended theorem applied to a concrete host with
N = 2 distinct-device partitions of which K = 1 raises a permission error. -/
theorem c2_disk_collect_witness :
    ∃ m, get_disk_info hC2 = .ok m ∧
      m.length = hC2.partitions.length ∧
      m.countP (fun e => e.2 == [("Status", "Permission denied")]) =
        hC2.partitions.countP (fun p => !p.usage.isOk) ∧
      (∀ p ∈ hC2.partitions, ∀ msg, p.usage = Except.error (.permissionError msg) →
        m.lookup p.device = some [("Status", "Permission denied")]) ∧
      (∀ p ∈ hC2.partitions, ∀ u, p.usage = Except.ok u →
        m.lookup p.device = some (diskFields p u) ∧
        (diskFields p u).map Prod.fst =
          ["Mountpoint", "File System", "Total Size", "Used", "Free", "Usage %"] ∧
        (diskFields p u).lookup "Usage %" =
          some (fmtFixed 1 (pyRound 1 ((u.used : ℚ) / (u.total : ℚ) * 100)) ++ "%")) :=
  c2_disk_collect hC2 (by decide) (by
    intro p hp
    rcases List.mem_cons.mp hp with h1 | hp2
    · subst h1
      exact Or.inl ⟨⟨107374182400, 102005473280, 5368709120⟩, rfl, by norm_num⟩
    · rcases List.mem_cons.mp hp2 with h2 | h3
      · subst h2
        exact Or.inr ⟨"denied", rfl⟩
      · simp at h3)

theorem healthDisk_spec :
    ∀ (ps : List Partition) (hs : List (String × String)),
    (∀ p ∈ ps, readableOrPerm p) →
    ∃ m, healthDisk ps hs = .ok m ∧
      ∀ k, (hasKey k m = true ↔ (hasKey k hs = true ∨
        ∃ p ∈ ps, ∃ u, p.usage = Except.ok u ∧
          90 < (u.used : ℚ) / (u.total : ℚ) * 100 ∧ k = "disk_warning_" ++ p.device))
  | [], hs, _ => ⟨hs, rfl, by simp⟩
  | p :: ps, hs, hcond => by
    rcases hcond p (by simp) with ⟨u, hu, hpos⟩ | ⟨msg, hperm⟩
    · by_cases hpct : 90 < (u.used : ℚ) / (u.total : ℚ) * 100
      · obtain ⟨m, hm, hiff⟩ := healthDisk_spec ps
          (dinsert ("disk_warning_" ++ p.device)
            ("Low disk space: " ++ fmtFixed 1 ((u.used : ℚ) / (u.total : ℚ) * 100) ++ "% used")
            hs)
          (fun q hq => hcond q (by simp [hq]))
        refine ⟨m, ?_, ?_⟩
        · simp only [healthDisk, hu]
          rw [if_neg (by omega), if_pos hpct]
          exact hm
        · intro k
          rw [hiff k, hasKey_dinsert_iff]
          constructor
          · rintro ((hk | hhs) | ⟨q, hq, u', hu', hpct', hk⟩)
            · exact Or.inr ⟨p, by simp, u, hu, hpct, hk⟩
            · exact Or.inl hhs
            · exact Or.inr ⟨q, by simp [hq], u', hu', hpct', hk⟩
          · rintro (hhs | ⟨q, hq, u', hu', hpct', hk⟩)
            · exact Or.inl (Or.inr hhs)
            · rcases List.mem_cons.mp hq with rfl | hq2
              · rw [hu] at hu'
                injection hu' with huu
                subst huu
                exact Or.inl (Or.inl hk)
              · exact Or.inr ⟨q, hq2, u', hu', hpct', hk⟩
      · obtain ⟨m, hm, hiff⟩ := healthDisk_spec ps hs (fun q hq => hcond q (by simp [hq]))
        refine ⟨m, ?_, ?_⟩
        · simp only [healthDisk, hu]
          rw [if_neg (by omega), if_neg hpct]
          exact hm
        · intro k
          rw [hiff k]
          constructor
          · rintro (hhs | ⟨q, hq, u', hu', hpct', hk⟩)
            · exact Or.inl hhs
            · exact Or.inr ⟨q, by simp [hq], u', hu', hpct', hk⟩
          · rintro (hhs | ⟨q, hq, u', hu', hpct', hk⟩)
            · exact Or.inl hhs
            · rcases List.mem_cons.mp hq with rfl | hq2
              · rw [hu] at hu'
                injection hu' with huu
                subst huu
                exact absurd hpct' hpct
              · exact Or.inr ⟨q, hq2, u', hu', hpct', hk⟩
    · obtain ⟨m, hm, hiff⟩ := healthDisk_spec ps hs (fun q hq => hcond q (by simp [hq]))
      refine ⟨m, ?_, ?_⟩
      · simp only [healthDisk, hperm]
        exact hm
      · intro k
        rw [hiff k]
        constructor
        · rintro (hhs | ⟨q, hq, u', hu', hpct', hk⟩)
          · exact Or.inl hhs
          · exact Or.inr ⟨q, by simp [hq], u', hu', hpct', hk⟩
        · rintro (hhs | ⟨q, hq, u', hu', hpct', hk⟩)
          · exact Or.inl hhs
          · rcases List.mem_cons.mp hq with rfl | hq2
            · rw [hperm] at hu'
              simp at hu'
            · exact Or.inr ⟨q, hq2, u', hu', hpct', hk⟩

/-- Claim C1: for every run of the health evaluator on a host whose
partitions have pairwise-distinct device names and whose usage queries
either succeed (with a positive total) or raise a permission error, the
result contains a "cpu_warning" entry iff the sampled CPU utilization
exceeds 80, a "memory_warning" entry iff memory utilization exceeds 85, and,
for every readable partition, a per-device disk warning entry iff its
used/total percentage exceeds 90; a permission-failing partition produces
neither a warning nor an error, and no warning key is present for a check
whose threshold is not exceeded. -/
theorem c1_health_warnings (h : Host)
    (hnd : (h.partitions.map Partition.device).Nodup)
    (hread : ∀ p ∈ h.partitions, readableOrPerm p) :
    ∃ m, check_system_health h = .ok m ∧
      (hasKey "cpu_warning" m = true ↔ 80 < h.cpu_percent) ∧
      (hasKey "memory_warning" m = true ↔ 85 < h.vm.percent) ∧
      (∀ p ∈ h.partitions, ∀ u, p.usage = Except.ok u →
        (hasKey ("disk_warning_" ++ p.device) m = true ↔
          90 < (u.used : ℚ) / (u.total : ℚ) * 100)) ∧
      (∀ p ∈ h.partitions, ∀ msg, p.usage = Except.error (.permissionError msg) →
        hasKey ("disk_warning_" ++ p.device) m = false) := by
  have hcpu_ne : ∀ d : String, ¬("cpu_warning" = "disk_warning_" ++ d) :=
    fun d hc => diskKey_ne_cpu d hc.symm
  have hmem_ne : ∀ d : String, ¬("memory_warning" = "disk_warning_" ++ d) :=
    fun d hc => diskKey_ne_mem d hc.symm
  obtain ⟨m, hm, hiff⟩ := healthDisk_spec h.partitions
    (if 85 < h.vm.percent then
      dinsert "memory_warning" ("High memory usage: " ++ pyFloatStr h.vm.percent ++ "%")
        (if 80 < h.cpu_percent then
          dinsert "cpu_warning" ("High CPU usage: " ++ pyFloatStr h.cpu_percent ++ "%")
            [("timestamp", h.timestampStr), ("uptime", h.uptimeStr),
             ("boot_time", h.bootTimeStr)]
        else
          [("timestamp", h.timestampStr), ("uptime", h.uptimeStr),
           ("boot_time", h.bootTimeStr)])
     else
      (if 80 < h.cpu_percent then
        dinsert "cpu_warning" ("High CPU usage: " ++ pyFloatStr h.cpu_percent ++ "%")
          [("timestamp", h.timestampStr), ("uptime", h.uptimeStr),
           ("boot_time", h.bootTimeStr)]
      else
        [("timestamp", h.timestampStr), ("uptime", h.uptimeStr),
         ("boot_time", h.bootTimeStr)])) hread
  have hbase : ∀ k, hasKey k
      (if 85 < h.vm.percent then
        dinsert "memory_warning" ("High memory usage: " ++ pyFloatStr h.vm.percent ++ "%")
          (if 80 < h.cpu_percent then
            dinsert "cpu_warning" ("High CPU usage: " ++ pyFloatStr h.cpu_percent ++ "%")
              [("timestamp", h.timestampStr), ("uptime", h.uptimeStr),
               ("boot_time", h.bootTimeStr)]
          else
            [("timestamp", h.timestampStr), ("uptime", h.uptimeStr),
             ("boot_time", h.bootTimeStr)])
       else
        (if 80 < h.cpu_percent then
          dinsert "cpu_warning" ("High CPU usage: " ++ pyFloatStr h.cpu_percent ++ "%")
            [("timestamp", h.timestampStr), ("uptime", h.uptimeStr),
             ("boot_time", h.bootTimeStr)]
        else
          [("timestamp", h.timestampStr), ("uptime", h.uptimeStr),
           ("boot_time", h.bootTimeStr)])) = true ↔
      ((85 < h.vm.percent ∧ k = "memory_warning") ∨
       (80 < h.cpu_percent ∧ k = "cpu_warning") ∨
       "timestamp" = k ∨ "uptime" = k ∨ "boot_time" = k) := by
    have hbl : ∀ k, (hasKey k [("timestamp", h.timestampStr), ("uptime", h.uptimeStr),
        ("boot_time", h.bootTimeStr)] = true) ↔
        ("timestamp" = k ∨ "uptime" = k ∨ "boot_time" = k) := by
      intro k
      simp [hasKey]
    intro k
    by_cases h85 : 85 < h.vm.percent <;> by_cases h80 : 80 < h.cpu_percent
    · rw [if_pos h85, if_pos h80, hasKey_dinsert_iff, hasKey_dinsert_iff, hbl]
      tauto
    · rw [if_pos h85, if_neg h80, hasKey_dinsert_iff, hbl]
      tauto
    · rw [if_neg h85, if_pos h80, hasKey_dinsert_iff, hbl]
      tauto
    · rw [if_neg h85, if_neg h80, hbl]
      tauto
  refine ⟨m, ?_, ?_, ?_, ?_, ?_⟩
  · simp only [check_system_health]
    exact hm
  · rw [hiff "cpu_warning", hbase "cpu_warning"]
    simp [hcpu_ne]
  · rw [hiff "memory_warning", hbase "memory_warning"]
    simp [hmem_ne]
  · intro p hp u hu
    rw [hiff _, hbase _]
    constructor
    · rintro ((⟨_, hk⟩ | ⟨_, hk⟩ | hk | hk | hk) | hex)
      · exact absurd hk (diskKey_ne_mem p.device)
      · exact absurd hk (diskKey_ne_cpu p.device)
      · exact absurd hk.symm (diskKey_ne_timestamp p.device)
      · exact absurd hk.symm (diskKey_ne_uptime p.device)
      · exact absurd hk.symm (diskKey_ne_boot p.device)
      · obtain ⟨q, hq, u', hu', hpct', hkey⟩ := hex
        have hdev : q.device = p.device := (diskKey_inj hkey).symm
        have hqp : q = p :=
          List.inj_on_of_nodup_map hnd hq hp hdev
        subst hqp
        rw [hu] at hu'
        injection hu' with huu
        subst huu
        exact hpct'
    · intro hpct
      exact Or.inr ⟨p, hp, u, hu, hpct, rfl⟩
  · intro p hp msg hperm
    rw [← Bool.not_eq_true, hiff _, hbase _]
    rintro ((⟨_, hk⟩ | ⟨_, hk⟩ | hk | hk | hk) | hex)
    · exact absurd hk (diskKey_ne_mem p.device)
    · exact absurd hk (diskKey_ne_cpu p.device)
    · exact absurd hk.symm (diskKey_ne_timestamp p.device)
    · exact absurd hk.symm (diskKey_ne_uptime p.device)
    · exact absurd hk.symm (diskKey_ne_boot p.device)
    · obtain ⟨q, hq, u', hu', hpct', hkey⟩ := hex
      have hdev : q.device = p.device := (diskKey_inj hkey).symm
      have hqp : q = p := List.inj_on_of_nodup_map hnd hq hp hdev
      subst hqp
      rw [hperm] at hu'
      simp at hu'

/-- The spec's scenario host: CPU at 10%, memory at 90%, one partition at
95% usage and one partition whose usage query raises a permission error. -/
def hW : Host :=
  { hOk with
    cpu_percent := 10
    vm := ⟨17179869184, 1717986918, 90⟩
    partitions :=
      [⟨"/dev/sda1", "/", "ext4", .ok ⟨107374182400, 102005473280, 5368709120⟩⟩,
       ⟨"/dev/sdb1", "/secret", "ext4", .error (.permissionError "denied")⟩] }

/-- Claim C1 witness: the theorem applied to the spec's scenario host. -/
theorem c1_health_warnings_witness :
    ∃ m, check_system_health hW = .ok m ∧
      (hasKey "cpu_warning" m = true ↔ 80 < hW.cpu_percent) ∧
      (hasKey "memory_warning" m = true ↔ 85 < hW.vm.percent) ∧
      (∀ p ∈ hW.partitions, ∀ u, p.usage = Except.ok u →
        (hasKey ("disk_warning_" ++ p.device) m = true ↔
          90 < (u.used : ℚ) / (u.total : ℚ) * 100)) ∧
      (∀ p ∈ hW.partitions, ∀ msg, p.usage = Except.error (.permissionError msg) →
        hasKey ("disk_warning_" ++ p.device) m = false) :=
  c1_health_warnings hW (by decide) (by
    intro p hp
    rcases List.mem_cons.mp hp with h1 | hp2
    · subst h1
      exact Or.inl ⟨⟨107374182400, 102005473280, 5368709120⟩, rfl, by norm_num⟩
    · rcases List.mem_cons.mp hp2 with h2 | h3
      · subst h2
        exact Or.inr ⟨"denied", rfl⟩
      · simp at h3)

/-- Claim C7: in every run in which no collector raises, the report renderer
writes each of the 8 section headers exactly once, in the fixed order
system, BIOS, CPU, memory, temperature, disk, network, health, regardless of
how many items any section contains. -/
theorem c7_report_headers (h : Host) (secs : List (String × List String))
    (hrun : mainSections h = (secs, Option.none)) :
    secs.map Prod.fst =
      ["SYSTEM INFORMATION:", "BIOS/MOTHERBOARD INFORMATION:", "CPU STATUS:",
       "MEMORY STATUS:", "TEMPERATURE SENSORS:", "DISK STATUS:",
       "NETWORK INTERFACES:", "SYSTEM HEALTH CHECK:"] := by
  rw [mainSections] at hrun
  split at hrun
  · exact absurd (congrArg Prod.snd hrun) (by simp)
  · split at hrun
    · exact absurd (congrArg Prod.snd hrun) (by simp)
    · have hfst := congrArg Prod.fst hrun
      simp only at hfst
      rw [← hfst]
      rfl

/-- Claim C7 witness: the theorem applied to the healthy host, on which the
whole pipeline succeeds. -/
theorem c7_report_headers_witness :
    (mainSections hOk).1.map Prod.fst =
      ["SYSTEM INFORMATION:", "BIOS/MOTHERBOARD INFORMATION:", "CPU STATUS:",
       "MEMORY STATUS:", "TEMPERATURE SENSORS:", "DISK STATUS:",
       "NETWORK INTERFACES:", "SYSTEM HEALTH CHECK:"] := by
  refine c7_report_headers hOk (mainSections hOk).1 ?_
  have hsnd : (mainSections hOk).2 = Option.none := by with_unfolding_all rfl
  rw [← hsnd]

theorem diskGo_ok : ∀ (ps : List Partition) (acc : List (String × List (String × String))),
    (∀ p ∈ ps, readableOrPerm p) → ∃ m, diskGo ps acc = .ok m
  | [], acc, _ => ⟨acc, rfl⟩
  | p :: ps, acc, hcond => by
    rcases hcond p (by simp) with ⟨u, hu, hpos⟩ | ⟨msg, hperm⟩
    · obtain ⟨m, hm⟩ := diskGo_ok ps (dinsert p.device (diskFields p u) acc)
        (fun q hq => hcond q (by simp [hq]))
      refine ⟨m, ?_⟩
      simp only [diskGo, hu]
      rw [if_neg (by omega)]
      exact hm
    · obtain ⟨m, hm⟩ := diskGo_ok ps (dinsert p.device [("Status", "Permission denied")] acc)
        (fun q hq => hcond q (by simp [hq]))
      refine ⟨m, ?_⟩
      simp only [diskGo, hperm]
      exact hm

theorem diskGo_errors :
    ∀ (ps : List Partition) (acc : List (String × List (String × String))),
    (∃ p ∈ ps, ∃ msg, p.usage = Except.error (PyErr.other msg)) →
    ∃ e, diskGo ps acc = .error e ∧ ∀ msg, e ≠ PyErr.permissionError msg
  | [], _, hex => by simp at hex
  | p :: ps, acc, hex => by
    cases hu : p.usage with
    | ok u =>
      by_cases ht : u.total = 0
      · refine ⟨.zeroDivision, ?_, by intro msg hc; cases hc⟩
        simp only [diskGo, hu]
        rw [if_pos ht]
      · have hex2 : ∃ q ∈ ps, ∃ msg, q.usage = Except.error (PyErr.other msg) := by
          obtain ⟨q, hq, msg, hqe⟩ := hex
          rcases List.mem_cons.mp hq with rfl | hq2
          · rw [hu] at hqe
            cases hqe
          · exact ⟨q, hq2, msg, hqe⟩
        obtain ⟨e, he, hne⟩ := diskGo_errors ps _ hex2
        refine ⟨e, ?_, hne⟩
        simp only [diskGo, hu]
        rw [if_neg ht]
        exact he
    | error err =>
      cases err with
      | permissionError msg2 =>
        have hex2 : ∃ q ∈ ps, ∃ msg, q.usage = Except.error (PyErr.other msg) := by
          obtain ⟨q, hq, msg, hqe⟩ := hex
          rcases List.mem_cons.mp hq with rfl | hq2
          · rw [hu] at hqe
            simp at hqe
          · exact ⟨q, hq2, msg, hqe⟩
        obtain ⟨e, he, hne⟩ := diskGo_errors ps _ hex2
        refine ⟨e, ?_, hne⟩
        simp only [diskGo, hu]
        exact he
      | zeroDivision =>
        exact ⟨.zeroDivision, by simp [diskGo, hu], by intro msg hc; cases hc⟩
      | other msg2 =>
        exact ⟨.other msg2, by simp [diskGo, hu], by intro msg hc; cases hc⟩

theorem healthDisk_errors :
    ∀ (ps : List Partition) (hs : List (String × String)),
    (∃ p ∈ ps, ∃ msg, p.usage = Except.error (PyErr.other msg)) →
    ∃ e, healthDisk ps hs = .error e ∧ ∀ msg, e ≠ PyErr.permissionError msg
  | [], _, hex => by simp at hex
  | p :: ps, hs, hex => by
    cases hu : p.usage with
    | ok u =>
      by_cases ht : u.total = 0
      · refine ⟨.zeroDivision, ?_, by intro msg hc; cases hc⟩
        simp only [healthDisk, hu]
        rw [if_pos ht]
      · have hex2 : ∃ q ∈ ps, ∃ msg, q.usage = Except.error (PyErr.other msg) := by
          obtain ⟨q, hq, msg, hqe⟩ := hex
          rcases List.mem_cons.mp hq with rfl | hq2
          · rw [hu] at hqe
            cases hqe
          · exact ⟨q, hq2, msg, hqe⟩
        by_cases hpct : 90 < (u.used : ℚ) / (u.total : ℚ) * 100
        · obtain ⟨e, he, hne⟩ := healthDisk_errors ps
            (dinsert ("disk_warning_" ++ p.device)
              ("Low disk space: " ++ fmtFixed 1 ((u.used : ℚ) / (u.total : ℚ) * 100) ++ "% used")
              hs) hex2
          refine ⟨e, ?_, hne⟩
          simp only [healthDisk, hu]
          rw [if_neg ht, if_pos hpct]
          exact he
        · obtain ⟨e, he, hne⟩ := healthDisk_errors ps hs hex2
          refine ⟨e, ?_, hne⟩
          simp only [healthDisk, hu]
          rw [if_neg ht, if_neg hpct]
          exact he
    | error err =>
      cases err with
      | permissionError msg2 =>
        have hex2 : ∃ q ∈ ps, ∃ msg, q.usage = Except.error (PyErr.other msg) := by
          obtain ⟨q, hq, msg, hqe⟩ := hex
          rcases List.mem_cons.mp hq with rfl | hq2
          · rw [hu] at hqe
            simp at hqe
          · exact ⟨q, hq2, msg, hqe⟩
        obtain ⟨e, he, hne⟩ := healthDisk_errors ps hs hex2
        refine ⟨e, ?_, hne⟩
        simp only [healthDisk, hu]
        exact he
      | zeroDivision =>
        exact ⟨.zeroDivision, by simp [healthDisk, hu], by intro msg hc; cases hc⟩
      | other msg2 =>
        exact ⟨.other msg2, by simp [healthDisk, hu], by intro msg hc; cases hc⟩

/-- Claim C10: in both the disk collector and the health evaluator's disk
check, only a permission error from the per-partition usage query is caught
and handled per item (collection then completes); any other exception from
the usage query makes both functions propagate an error (never a permission
error) and aborts the report inside the disk section — its output is
exactly the five complete sections followed by the already-printed
"DISK STATUS:" header and bare separator (six headers) — before reaching
the top-level handler, whose two lines end the program output. -/
theorem c10_exception_propagation (h : Host) :
    ((∀ p ∈ h.partitions, readableOrPerm p) →
      (∃ m, get_disk_info h = .ok m) ∧ (∃ m, check_system_health h = .ok m)) ∧
    ((∃ p ∈ h.partitions, ∃ msg, p.usage = Except.error (PyErr.other msg)) →
      ∃ e₁ e₂, get_disk_info h = .error e₁ ∧ (∀ msg, e₁ ≠ PyErr.permissionError msg) ∧
        check_system_health h = .error e₂ ∧ (∀ msg, e₂ ≠ PyErr.permissionError msg) ∧
        (mainSections h).2 = some e₁ ∧
        (mainSections h).1 = preDiskSections h ++ [("DISK STATUS:", [sepLine])] ∧
        (mainSections h).1.map Prod.fst =
          ["SYSTEM INFORMATION:", "BIOS/MOTHERBOARD INFORMATION:", "CPU STATUS:",
           "MEMORY STATUS:", "TEMPERATURE SENSORS:", "DISK STATUS:"] ∧
        handlerLines e₁ <:+ runProgram h) := by
  constructor
  · intro hread
    constructor
    · obtain ⟨m, hm⟩ := diskGo_ok h.partitions [] hread
      exact ⟨m, by rw [get_disk_info]; exact hm⟩
    · obtain ⟨m, hm, _⟩ := healthDisk_spec h.partitions _ hread
      exact ⟨m, by simp only [check_system_health]; exact hm⟩
  · intro hex
    obtain ⟨e₁, hd, hne₁⟩ := diskGo_errors h.partitions [] hex
    obtain ⟨e₂, hh, hne₂⟩ := healthDisk_errors h.partitions _ hex
    have hdisk : get_disk_info h = .error e₁ := by rw [get_disk_info]; exact hd
    have hsnd : (mainSections h).2 = some e₁ := by
      simp [mainSections, hdisk]
    have hfst : (mainSections h).1 =
        preDiskSections h ++ [("DISK STATUS:", [sepLine])] := by
      simp [mainSections, hdisk]
    refine ⟨e₁, e₂, hdisk, hne₁, ?_, hne₂, hsnd, hfst, ?_, ?_⟩
    · simp only [check_system_health]
      exact hh
    · rw [hfst]
      rfl
    · have h3 : runProgram h =
          introLines h ++ (mainSections h).1.flatMap (fun s => s.1 :: s.2) ++
            handlerLines e₁ := by
        rw [runProgram]
        simp only [hsnd]
      rw [h3]
      exact List.suffix_append _ _

/-- A host with one healthy partition and one whose mountpoint has vanished,
so its usage query raises a non-permission OSError. -/
def hC10 : Host :=
  { hOk with partitions :=
    [⟨"/dev/sda1", "/", "ext4", .ok ⟨107374182400, 53687091200, 53687091200⟩⟩,
     ⟨"/dev/sdb1", "/gone", "ext4", .error (.other "No such file or directory")⟩] }

/-- Claim C10 witness: the completion half applied to the healthy host and
the propagation half applied to the vanished-mountpoint host. -/
theorem c10_exception_propagation_witness :
    ((∃ m, get_disk_info hOk = .ok m) ∧ (∃ m, check_system_health hOk = .ok m)) ∧
    (∃ e₁ e₂, get_disk_info hC10 = .error e₁ ∧
      (∀ msg, e₁ ≠ PyErr.permissionError msg) ∧
      check_system_health hC10 = .error e₂ ∧
      (∀ msg, e₂ ≠ PyErr.permissionError msg) ∧
      (mainSections hC10).2 = some e₁ ∧
      (mainSections hC10).1 = preDiskSections hC10 ++ [("DISK STATUS:", [sepLine])] ∧
      (mainSections hC10).1.map Prod.fst =
        ["SYSTEM INFORMATION:", "BIOS/MOTHERBOARD INFORMATION:", "CPU STATUS:",
         "MEMORY STATUS:", "TEMPERATURE SENSORS:", "DISK STATUS:"] ∧
      handlerLines e₁ <:+ runProgram hC10) :=
  ⟨(c10_exception_propagation hOk).1 (by
      intro p hp
      rcases List.mem_cons.mp hp with h1 | h2
      · subst h1
        exact Or.inl ⟨⟨107374182400, 53687091200, 53687091200⟩, rfl, by norm_num⟩
      · simp at h2),
   (c10_exception_propagation hC10).2
     ⟨⟨"/dev/sdb1", "/gone", "ext4", .error (.other "No such file or directory")⟩,
      by decide, "No such file or directory", rfl⟩⟩
